import Mathlib

/-!
Shallow embedding of the aerobot position monitor.

Modelled source files:
- services/monitor.ts (cooldown version): `isPositionInRange`,
  `getPositionStatus`, the per-position body of `checkAndAlert`
  (`checkAndAlertStep`), `ALERT_COOLDOWN_MS`;
- services/sugar.ts: `fetchPositions`, `fetchPoolData`,
  `fetchPoolsForPositions`;
- utils/cache.ts: `Cache` with TTL expiry;
- utils/batch-provider.ts: `BatchProvider.execute` / `processChunk`;
- utils/rate-limiter.ts: `RateLimiter.execute`.

JavaScript numbers holding timestamps and ticks are modelled as `Nat`
(timestamps) and `Int` (ticks); `bigint` fields as `Nat` (uint256);
addresses as `String`.  Network effects are modelled by explicit oracles.
-/

/-- Zero address constant (`ethers.ZeroAddress`, also the literal
`0x0000000000000000000000000000000000000000` that `fetchPositions`
compares against — both are the same string). -/
def ZeroAddress : String := "0x0000000000000000000000000000000000000000"

/-- Position record (abis/lp-sugar.ts, `interface Position`).  Only the
fields that the modelled functions actually read are kept (`id`, `lp`,
`liquidity`, `staked`, `tick_lower`, `tick_upper`); the remaining fields
(`amount0`, `amount1`, `staked0`, `staked1`, `unstaked_earned0`,
`unstaked_earned1`, `emissions_earned`, `sqrt_ratio_lower`,
`sqrt_ratio_upper`, `locker`, `unlocks_at`, `alm`) are carried opaquely by
the code and never inspected by the functions under verification. -/
structure Position where
  id : Nat
  lp : String
  liquidity : Nat
  staked : Nat
  tick_lower : Int
  tick_upper : Int
deriving DecidableEq

/-- Pool record (abis/lp-sugar.ts, `interface LpPool`).  Only the fields
that the modelled functions read or that `fetchPoolData` computes from RPC
data are kept; the other fields are filled by `fetchPoolData` with fixed
placeholder constants and never read. -/
structure LpPool where
  lp : String
  symbol : String
  liquidity : Nat
  tick : Int
  sqrt_ratio : Nat
  token0 : String
  token1 : String
deriving DecidableEq

/-- Range predicate (services/monitor.ts `isPositionInRange`):
`pool.tick >= position.tick_lower && pool.tick < position.tick_upper`. -/
def isPositionInRange (position : Position) (pool : LpPool) : Bool :=
  decide (pool.tick ≥ position.tick_lower) && decide (pool.tick < position.tick_upper)

/-- Per-cycle derived status (services/monitor.ts `interface PositionStatus`). -/
structure PositionStatus where
  positionId : Nat
  poolAddress : String
  poolSymbol : String
  isInRange : Bool
  currentTick : Int
  tickLower : Int
  tickUpper : Int
  liquidity : Nat
  isStaked : Bool
deriving DecidableEq

/-- Status derivation (services/monitor.ts `getPositionStatus`). -/
def getPositionStatus (position : Position) (pool : LpPool) : PositionStatus :=
  { positionId := position.id
    poolAddress := position.lp
    poolSymbol := pool.symbol
    isInRange := isPositionInRange position pool
    currentTick := pool.tick
    tickLower := position.tick_lower
    tickUpper := position.tick_upper
    liquidity := position.liquidity
    isStaked := position.staked > 0 }

/-- Monitor memory per key (services/monitor.ts `interface PositionState`,
cooldown version). -/
structure PositionState where
  isInRange : Bool
  isStaked : Bool
  lastOutOfRangeAlertTime : Nat
  lastUnstakedAlertTime : Nat
deriving DecidableEq

/-- Cooldown constant (services/monitor.ts `ALERT_COOLDOWN_MS = 60 * 60 * 1000`). -/
def ALERT_COOLDOWN_MS : Nat := 60 * 60 * 1000

/-- Which alerts one evaluation of the `checkAndAlert` loop body sends for
one position (each alert is sent at most once per position per cycle). -/
structure AlertsEmitted where
  unstakedAlert : Bool
  outOfRangeAlert : Bool
  backInRangeAlert : Bool
deriving DecidableEq

/-- Loop body of services/monitor.ts `checkAndAlert` for a single
position: takes the stored previous state for the position key (or none on
first observation), the freshly computed status and `currentTime`
(`Date.now()` at the start of the cycle), and returns the alerts emitted
together with the `PositionState` written back into `previousStates`.
The subtraction in the cooldown tests is done in `Int`, matching
JavaScript number arithmetic. -/
def checkAndAlertStep (prevState : Option PositionState) (status : PositionStatus)
    (currentTime : Nat) : AlertsEmitted × PositionState :=
  let isNowInRange := status.isInRange
  let isNowStaked := status.isStaked
  let lastOutOfRange0 : Nat :=
    match prevState with
    | some p => p.lastOutOfRangeAlertTime
    | none => 0
  let lastUnstaked0 : Nat :=
    match prevState with
    | some p => p.lastUnstakedAlertTime
    | none => 0
  let unstakedRes : Bool × Nat :=
    if !isNowStaked then
      let wasStaked := match prevState with
        | some p => p.isStaked
        | none => true
      let isTransition := wasStaked == true
      let cooldownExpired :=
        decide ((currentTime : Int) - (lastUnstaked0 : Int) > (ALERT_COOLDOWN_MS : Int))
      if isTransition || cooldownExpired then (true, currentTime)
      else (false, lastUnstaked0)
    else (false, 0)
  let rangeRes : Bool × Bool × Nat :=
    if !isNowInRange then
      let wasInRange := match prevState with
        | some p => p.isInRange
        | none => true
      let isTransition := wasInRange == true
      let cooldownExpired :=
        decide ((currentTime : Int) - (lastOutOfRange0 : Int) > (ALERT_COOLDOWN_MS : Int))
      if isTransition || cooldownExpired then (true, false, currentTime)
      else (false, false, lastOutOfRange0)
    else
      let backInRange := match prevState with
        | some p => !p.isInRange
        | none => false
      (false, backInRange, 0)
  (⟨unstakedRes.1, rangeRes.1, rangeRes.2.1⟩,
   ⟨isNowInRange, isNowStaked, rangeRes.2.2, unstakedRes.2⟩)

/-- Sequence of evaluations of the loop body for one position observed with
the same status at the given cycle times, starting from the given stored
state, threading the updated state exactly as `previousStates` does. -/
def runSteps (status : PositionStatus) (st : Option PositionState) :
    List Nat → List AlertsEmitted
  | [] => []
  | t :: ts =>
    let r := checkAndAlertStep st status t
    r.1 :: runSteps status (some r.2) ts

/-- Cycle times at which an out-of-range alert is emitted when a position
with the given constant status is observed at each of the given times,
starting with no stored state. -/
def outOfRangeAlertTimes (status : PositionStatus) (times : List Nat) : List Nat :=
  ((times.zip (runSteps status none times)).filter
    (fun p => p.2.outOfRangeAlert)).map (fun p => p.1)

/-- Concrete status used in the cooldown scenario: staked, out of range. -/
def c2Status : PositionStatus :=
  { positionId := 1
    poolAddress := "0x00000000000000000000000000000000000000a1"
    poolSymbol := "WETH/USDC"
    isInRange := false
    currentTick := 1200
    tickLower := 900
    tickUpper := 1100
    liquidity := 5
    isStaked := true }

/-- Poll times of the cooldown scenario: a 10-minute poll interval over
3 hours, 18 cycles at t = 0, 10 min, ..., 170 min (in milliseconds). -/
def c2PollTimes : List Nat := (List.range 18).map (fun k => k * 600000)

/-- Raw position tuple as decoded from a Sugar `positions(...)` or
`positionsUnstakedConcentrated(...)` page, before `parsePosition`; it has
the same relevant fields as `Position` (the model elides the fields the
code never inspects, as for `Position`). -/
structure RawPosition where
  id : Nat
  lp : String
  liquidity : Nat
  staked : Nat
  tick_lower : Int
  tick_upper : Int
deriving DecidableEq

/-- Field-by-field copy of a decoded tuple into a `Position` record
(services/sugar.ts `parsePosition`; the `Number(...)` and `BigInt(...)`
conversions are identities in this model). -/
def parsePosition (pos : RawPosition) : Position :=
  { id := pos.id
    lp := pos.lp
    liquidity := pos.liquidity
    staked := pos.staked
    tick_lower := pos.tick_lower
    tick_upper := pos.tick_upper }

/-- Inner loop of `fetchPositions` over one decoded page (services/sugar.ts,
identical in both pagination loops): for each tuple, skip the zero pool
address (the source compares against `ethers.ZeroAddress` and the literal
zero-address string, which are the same value), keep only tuples where
liquidity, staked or id is positive, parse, and append unless a position
with the same `(id, lp)` pair is already in the accumulator. -/
def addBatch (acc : List Position) : List RawPosition → List Position
  | [] => acc
  | pos :: rest =>
    addBatch
      (if pos.lp ≠ ZeroAddress then
        if pos.liquidity > 0 ∨ pos.staked > 0 ∨ pos.id > 0 then
          let p := parsePosition pos
          if acc.any (fun existing => existing.id == p.id && existing.lp == p.lp) then acc
          else acc ++ [p]
        else acc
      else acc) rest

/-- Model of services/sugar.ts `fetchPositions`: the pages successfully
decoded from the `positions()` pagination loop are processed first, then
the pages from the `positionsUnstakedConcentrated()` loop, all into one
accumulator (pages whose call failed simply do not appear in the input
lists, matching the catch-and-continue behaviour of the source). -/
def fetchPositions (positionsPages unstakedConcentratedPages : List (List RawPosition)) :
    List Position :=
  unstakedConcentratedPages.foldl addBatch (positionsPages.foldl addBatch [])

/-- Tuple-level keep condition of `fetchPositions`, as one predicate: pool
address nonzero, and not an empty slot. -/
def keepRaw (pos : RawPosition) : Bool :=
  decide (pos.lp ≠ ZeroAddress ∧ (pos.liquidity > 0 ∨ pos.staked > 0 ∨ pos.id > 0))

/-- Modelled from the spec: first-occurrence deduplication by the
`(id, pool_address)` key, written directly from the spec sentence
"deduplicate by `(id, pool_address)` pair, keeping first occurrence", to be
compared with the accumulator-based deduplication of `fetchPositions`. -/
def dedupByKeyFirstAux (seen : List (Nat × String)) : List Position → List Position
  | [] => []
  | p :: rest =>
    if (p.id, p.lp) ∈ seen then dedupByKeyFirstAux seen rest
    else p :: dedupByKeyFirstAux ((p.id, p.lp) :: seen) rest

/-- Modelled from the spec: `dedupByKeyFirstAux` starting from no seen keys. -/
def dedupByKeyFirst (l : List Position) : List Position :=
  dedupByKeyFirstAux [] l

/-- Deduplicating append used to restate the inner loop of `fetchPositions`
on already-parsed positions. -/
def dedupAppend (acc : List Position) : List Position → List Position
  | [] => acc
  | p :: l =>
    dedupAppend
      (if acc.any (fun existing => existing.id == p.id && existing.lp == p.lp) then acc
       else acc ++ [p]) l

/-- Deduplication key of a position: the `(id, pool_address)` pair. -/
def posKey (p : Position) : Nat × String :=
  (p.id, p.lp)

/-- Entry of the TTL cache (utils/cache.ts): stored value plus absolute
expiry time `Date.now() + ttl` at insertion. -/
structure CacheEntry (T : Type) where
  value : T
  expiry : Nat
deriving DecidableEq

/-- TTL cache (utils/cache.ts `class Cache<T>`): a JavaScript `Map` is
modelled as an association list with unique keys (first match wins on
lookup, `set` overwrites in place), plus the fixed per-cache TTL. -/
structure Cache (T : Type) where
  data : List (String × CacheEntry T)
  ttl : Nat
deriving DecidableEq

/-- Lookup in the modelled `Map` backing store. -/
def mapLookup {T : Type} (m : List (String × CacheEntry T)) (key : String) :
    Option (CacheEntry T) :=
  (m.find? (fun e => e.1 == key)).map (fun e => e.2)

/-- Deletion in the modelled `Map` backing store (`this.data.delete(key)`). -/
def mapErase {T : Type} (m : List (String × CacheEntry T)) (key : String) :
    List (String × CacheEntry T) :=
  m.filter (fun e => ¬ (e.1 == key))

/-- Insertion in the modelled `Map` backing store (`this.data.set(key, v)`):
overwrite in place if present, else append. -/
def mapInsert {T : Type} (m : List (String × CacheEntry T)) (key : String)
    (entry : CacheEntry T) : List (String × CacheEntry T) :=
  if m.any (fun e => e.1 == key) then
    m.map (fun e => if e.1 == key then (key, entry) else e)
  else m ++ [(key, entry)]

/-- utils/cache.ts `Cache.get`: absent key gives none; a present entry with
`Date.now() > entry.expiry` is deleted and treated as absent; otherwise the
value is returned.  `Date.now()` is passed explicitly as `now`; the
possibly-modified cache is returned alongside the result. -/
def Cache.get {T : Type} (c : Cache T) (now : Nat) (key : String) :
    Option T × Cache T :=
  match mapLookup c.data key with
  | none => (none, c)
  | some entry =>
    if now > entry.expiry then (none, { c with data := mapErase c.data key })
    else (some entry.value, c)

/-- utils/cache.ts `Cache.set`: store with fresh expiry `now + ttl`. -/
def Cache.set {T : Type} (c : Cache T) (now : Nat) (key : String) (value : T) :
    Cache T :=
  { c with data := mapInsert c.data key ⟨value, now + c.ttl⟩ }

/-- Fresh empty cache (the module-level `poolCache` at startup). -/
def Cache.empty (T : Type) (ttl : Nat) : Cache T :=
  ⟨[], ttl⟩

/-- RPC oracle for the pool resolver: the outcome of each underlying
contract call of `fetchPoolData` during one poll cycle (`none` models a
rejected call).  `slot0` returns the pair (sqrtPriceX96, tick). -/
structure PoolOracle where
  slot0 : String → Option (Nat × Int)
  token0 : String → Option String
  token1 : String → Option String
  liquidity : String → Option Nat
  tickSpacing : String → Option Int
  symbol : String → Option String
  decimals : String → Option Nat

/-- Model of services/sugar.ts `fetchPoolData`: serve a fresh cache entry
directly; otherwise issue the five pool basics calls (`slot0`, `token0`,
`token1`, `liquidity`, `tickSpacing`) in one `Promise.all`, then the four
token calls (`symbol` and `decimals` for each token) in a second
`Promise.all`, build the `LpPool` with synthetic symbol `"SYM0/SYM1"`,
cache it and return it.  A rejected call rejects its whole `Promise.all`,
so the function throws (modelled as `none`) and caches nothing; the calls
of a reached stage are all dispatched, so the third component counts 0 RPC
calls on a cache hit, 5 when the basics stage fails, and 9 otherwise. -/
def fetchPoolData (oracle : PoolOracle) (cache : Cache LpPool) (now : Nat)
    (poolAddress : String) : Option LpPool × Cache LpPool × Nat :=
  match Cache.get cache now poolAddress with
  | (some cached, cache1) => (some cached, cache1, 0)
  | (none, cache1) =>
    match oracle.slot0 poolAddress, oracle.token0 poolAddress, oracle.token1 poolAddress,
        oracle.liquidity poolAddress, oracle.tickSpacing poolAddress with
    | some slot0, some token0Addr, some token1Addr, some liquidity, some _ =>
      match oracle.symbol token0Addr, oracle.decimals token0Addr,
          oracle.symbol token1Addr, oracle.decimals token1Addr with
      | some symbol0, some _, some symbol1, some _ =>
        let poolData : LpPool :=
          { lp := poolAddress
            symbol := symbol0 ++ "/" ++ symbol1
            liquidity := liquidity
            tick := slot0.2
            sqrt_ratio := slot0.1
            token0 := token0Addr
            token1 := token1Addr }
        (some poolData, Cache.set cache1 now poolAddress poolData, 9)
      | _, _, _, _ => (none, cache1, 9)
    | _, _, _, _, _ => (none, cache1, 5)

/-- First-occurrence deduplication of pool addresses, modelling
`[...new Set(positions.map(p => p.lp))]` (a JavaScript `Set` keeps
insertion order). -/
def dedupStringsAux (seen : List String) : List String → List String
  | [] => []
  | s :: rest =>
    if s ∈ seen then dedupStringsAux seen rest
    else s :: dedupStringsAux (s :: seen) rest

/-- Model of services/sugar.ts `fetchPoolsForPositions`: run `fetchPoolData`
for each distinct pool address of the positions, adding each successfully
fetched pool to the result map and skipping pools whose fetch threw; the
cache is threaded through and the total number of RPC calls issued is
accumulated. -/
def fetchPoolsForPositions (oracle : PoolOracle) (cache : Cache LpPool) (now : Nat)
    (positions : List Position) :
    List (String × LpPool) × Cache LpPool × Nat :=
  let uniquePools := dedupStringsAux [] (positions.map (fun p => p.lp))
  uniquePools.foldl
    (fun st poolAddress =>
      let r := fetchPoolData oracle st.2.1 now poolAddress
      match r.1 with
      | some pool => (st.1 ++ [(poolAddress, pool)], r.2.1, st.2.2 + r.2.2)
      | none => (st.1, r.2.1, st.2.2 + r.2.2))
    ([], cache, 0)

/-- Lookup in the result map of `fetchPoolsForPositions`
(`poolMap.get(position.lp)` in `monitorPositions`). -/
def mapGetPool (m : List (String × LpPool)) (key : String) : Option LpPool :=
  (m.find? (fun e => e.1 == key)).map (fun e => e.2)

/-- Logical contract call handed to the batch provider
(utils/batch-provider.ts `interface BatchCall`).  The interface, method and
params of the source are subsumed here by the pre-encoded calldata (built
by `encodeFunctionData` before the try block, assumed total for well-formed
calls) and by the per-call decoder modelling
`iface.decodeFunctionResult(call.method, hexData)`, whose `none` outcome
models a decoding throw. -/
structure BatchCall where
  target : String
  calldata : String
  decode : String → Option (List Nat)

/-- One entry of a decoded JSON-RPC array response: its `id`, an optional
error object (kept as its message) and the `result` hex string. -/
structure RpcEntry where
  id : Nat
  error : Option String
  result : String
deriving DecidableEq

/-- Outcome of sending one chunk over HTTP: a non-2xx status
(`!response.ok`), a thrown fetch / `response.json()` (network error or
malformed JSON, landing in the outer catch), a non-array JSON value (with
or without an `error` field), or a decoded array of entries. -/
inductive ChunkResponse where
  | httpError (status : Nat)
  | networkError
  | nonArray (hasErrorField : Bool)
  | ok (entries : List RpcEntry)

/-- Per-call result of the batch provider (utils/batch-provider.ts
`interface BatchResult`); on failure the `data` error payload is not
modelled beyond the flag. -/
structure BatchResult where
  success : Bool
  value : Option (List Nat)
deriving DecidableEq

/-- Failed batch result (`{ success: false, data: ... }`). -/
def failedResult : BatchResult :=
  ⟨false, none⟩

/-- Lookup of a response entry by id in the map built by
`new Map(jsonParams.map(r => [r.id, r]))`: later entries with the same id
overwrite earlier ones, so the last match wins. -/
def lookupById (entries : List RpcEntry) (i : Nat) : Option RpcEntry :=
  entries.reverse.find? (fun r => r.id == i)

/-- Result of one call inside one chunk, as a function of the call, its
intra-chunk id (its index in the chunk, which is also the JSON-RPC id the
payload assigns to it) and the chunk's response.  On the three non-ok
response shapes every call of the chunk fails, matching the early
`calls.map(() => ({ success: false, ... }))` returns of `processChunk`
pointwise; on an array response the entry is looked up by id, an entry-level
RPC error or a missing entry fails that call, and otherwise the call's
decoder decides. -/
def entryOutcome (call : BatchCall) (intraId : Nat) (resp : ChunkResponse) : BatchResult :=
  match resp with
  | .httpError _ => failedResult
  | .networkError => failedResult
  | .nonArray _ => failedResult
  | .ok entries =>
    match lookupById entries intraId with
    | none => failedResult
    | some res =>
      match res.error with
      | some _ => failedResult
      | none =>
        match call.decode res.result with
        | some decoded => ⟨true, some decoded⟩
        | none => failedResult

/-- Per-chunk mapping of `processChunk`: call at chunk position i gets
JSON-RPC id i and is resolved by `entryOutcome`. -/
def processEntries (resp : ChunkResponse) : Nat → List BatchCall → List BatchResult
  | _, [] => []
  | i, c :: rest => entryOutcome c i resp :: processEntries resp (i + 1) rest

/-- Model of utils/batch-provider.ts `BatchProvider.processChunk`. -/
def processChunk (calls : List BatchCall) (resp : ChunkResponse) : List BatchResult :=
  processEntries resp 0 calls

/-- Chunking loop of `BatchProvider.execute` (`for i = 0; i < len; i += batchSize`),
written with explicit fuel so that it is structural; `execute` supplies
`calls.length` as fuel, which suffices whenever `batchSize > 0` (with
`batchSize = 0` the source loop would not terminate either). -/
def executeChunksFuel (net : Nat → ChunkResponse) (batchSize : Nat) :
    Nat → Nat → List BatchCall → List BatchResult
  | 0, _, _ => []
  | _ + 1, _, [] => []
  | fuel + 1, chunkIdx, c :: rest =>
    processChunk ((c :: rest).take batchSize) (net chunkIdx) ++
      executeChunksFuel net batchSize fuel (chunkIdx + 1) ((c :: rest).drop batchSize)

/-- Model of utils/batch-provider.ts `BatchProvider.execute`: partition the
calls into chunks of at most `batchSize`, send each chunk as one HTTP
request (the network is the `net` oracle, indexed by chunk number) and
concatenate the per-chunk results in order. -/
def BatchProvider.execute (net : Nat → ChunkResponse) (calls : List BatchCall)
    (batchSize : Nat) : List BatchResult :=
  executeChunksFuel net batchSize calls.length 0 calls

/-- JavaScript `error.code` as tested by the rate limiter: absent, a
number, or a string. -/
inductive JsErrCode where
  | noCode
  | num (n : Nat)
  | str (s : String)
deriving DecidableEq

/-- Error thrown by an RPC operation, with the two fields the rate limiter
inspects (`message` may be absent: `error.message?.includes`). -/
structure RpcError where
  code : JsErrCode
  message : Option String
deriving DecidableEq

/-- Helper: does the second list occur as a prefix of the first list. -/
def listStartsWith : List Char → List Char → Bool
  | _, [] => true
  | [], _ :: _ => false
  | a :: as, b :: bs => a == b && listStartsWith as bs

/-- Helper: does `sub` occur contiguously somewhere in the list, matching
JavaScript `String.prototype.includes`. -/
def listHasSegment (sub : List Char) : List Char → Bool
  | [] => sub.isEmpty
  | c :: rest => listStartsWith (c :: rest) sub || listHasSegment sub rest

/-- JavaScript `message?.includes(sub)` coerced to boolean: false when
`message` is absent. -/
def messageIncludes (message : Option String) (sub : String) : Bool :=
  match message with
  | none => false
  | some m => listHasSegment sub.toList m.toList

/-- Classification of utils/rate-limiter.ts `RateLimiter.execute`:
`error.code === 'RATE_LIMIT' || error.code === 429 ||
error.message?.includes('rate limit') || error.message?.includes('Too Many Requests')`. -/
def isRateLimitError (e : RpcError) : Bool :=
  (e.code == JsErrCode.str "RATE_LIMIT") || (e.code == JsErrCode.num 429) ||
    messageIncludes e.message "rate limit" || messageIncludes e.message "Too Many Requests"

/-- Modelled from the spec: the classification the claim states, namely
status code 429 or an error-message substring match for "rate limit" or
"Too Many Requests", with no other case; to be compared with
`isRateLimitError`, the classification the code uses. -/
def claimRateLimitClassified (e : RpcError) : Bool :=
  (e.code == JsErrCode.num 429) ||
    messageIncludes e.message "rate limit" || messageIncludes e.message "Too Many Requests"

/-- Retry loop of utils/rate-limiter.ts `RateLimiter.execute`, indexed by
the remaining retry budget `maxRetries - attempt`.  The operation is an
oracle from attempt number to outcome.  Whenever the attempt throws a
rate-limit-classified error and retries remain, the loop sleeps
`currentDelay` ms (recorded in the returned list) and retries with the
delay multiplied by `backoffMultiplier`; a non-classified error is
re-thrown immediately; when the budget is exhausted the last error is
re-thrown.  Real-time sleeping and the `waitForNextSlot` minimum-gap
throttle have no observable effect on the returned value and are not
modelled beyond the recorded delay list. -/
def RateLimiter.executeAux (op : Nat → Except RpcError Nat) (attempt : Nat)
    (currentDelay : Nat) (backoffMultiplier : Nat) :
    Nat → Except RpcError Nat × List Nat
  | 0 =>
    (match op attempt with
     | .ok v => .ok v
     | .error e => .error e, [])
  | remaining + 1 =>
    match op attempt with
    | .ok v => (.ok v, [])
    | .error e =>
      if isRateLimitError e then
        let r := RateLimiter.executeAux op (attempt + 1)
          (currentDelay * backoffMultiplier) backoffMultiplier remaining
        (r.1, currentDelay :: r.2)
      else (.error e, [])

/-- Model of utils/rate-limiter.ts `RateLimiter.execute` for a limiter
constructed with the given `minDelayMs`, `maxRetries` and
`backoffMultiplier` (`currentDelay` starts at `minDelayMs`): result plus
the list of backoff delays slept before each retry. -/
def RateLimiter.execute (op : Nat → Except RpcError Nat)
    (minDelayMs maxRetries backoffMultiplier : Nat) :
    Except RpcError Nat × List Nat :=
  RateLimiter.executeAux op 0 minDelayMs backoffMultiplier maxRetries

/-- Transport-level failure discriminator for chunk responses: everything
except a decoded JSON array (non-2xx HTTP, network error or thrown JSON
parse, non-array JSON value). -/
def isTransportFailure : ChunkResponse → Bool
  | .ok _ => false
  | _ => true

/-- Concrete position for the range-boundary witness. -/
def c1Position : Position :=
  { id := 7, lp := "0x00000000000000000000000000000000000000a1", liquidity := 1,
    staked := 1, tick_lower := 900, tick_upper := 1100 }

/-- Concrete pool at a chosen current tick for the range-boundary witness. -/
def c1PoolAt (t : Int) : LpPool :=
  { lp := "0x00000000000000000000000000000000000000a1", symbol := "WETH/USDC",
    liquidity := 3, tick := t, sqrt_ratio := 1,
    token0 := "0x00000000000000000000000000000000000000b0",
    token1 := "0x00000000000000000000000000000000000000b1" }

/-- Concrete previously-out-of-range stored state for witnesses. -/
def c3PrevOut : PositionState :=
  { isInRange := false, isStaked := true, lastOutOfRangeAlertTime := 0,
    lastUnstakedAlertTime := 0 }

/-- Concrete in-range staked status for witnesses. -/
def c3StatusIn : PositionStatus :=
  { c2Status with isInRange := true }

/-- Raw tuple kept by the fetch filter; duplicated across the two sources
in the deduplication witness. -/
def c5RawA : RawPosition :=
  { id := 11, lp := "0x00000000000000000000000000000000000000c1",
    liquidity := 4, staked := 0, tick_lower := -10, tick_upper := 10 }

/-- Second copy of the same `(id, lp)` key with different other fields
(the second source returns the position again). -/
def c5RawA2 : RawPosition :=
  { id := 11, lp := "0x00000000000000000000000000000000000000c1",
    liquidity := 9, staked := 2, tick_lower := -20, tick_upper := 20 }

/-- Raw tuple with the zero pool address (discarded). -/
def c5RawZero : RawPosition :=
  { id := 12, lp := "0x0000000000000000000000000000000000000000",
    liquidity := 4, staked := 1, tick_lower := 0, tick_upper := 1 }

/-- Empty-slot raw tuple: liquidity, staked and id all zero (discarded). -/
def c5RawEmpty : RawPosition :=
  { id := 0, lp := "0x00000000000000000000000000000000000000c2",
    liquidity := 0, staked := 0, tick_lower := 0, tick_upper := 1 }

/-- Pages returned by the first source query in the deduplication witness. -/
def c5Pages1 : List (List RawPosition) :=
  [[c5RawA, c5RawZero, c5RawEmpty]]

/-- Pages returned by the second, overlapping source query. -/
def c5Pages2 : List (List RawPosition) :=
  [[c5RawA2]]

/-- Oracle whose calls all succeed, for the cache-TTL witness. -/
def c6Oracle : PoolOracle :=
  { slot0 := fun _ => some (123456, 1000)
    token0 := fun _ => some "0x00000000000000000000000000000000000000b0"
    token1 := fun _ => some "0x00000000000000000000000000000000000000b1"
    liquidity := fun _ => some 5000
    tickSpacing := fun _ => some 100
    symbol := fun t =>
      if t == "0x00000000000000000000000000000000000000b0" then some "WETH" else some "USDC"
    decimals := fun _ => some 18 }

/-- Concrete position whose pool is fetched in the cache-TTL witness. -/
def c6Pos : Position :=
  { id := 21, lp := "0x00000000000000000000000000000000000000d1",
    liquidity := 7, staked := 3, tick_lower := 900, tick_upper := 1100 }

/-- Oracle for the symbol-failure scenario: the five pool basics succeed
but the `symbol()` call for token0 is rejected. -/
def c9Oracle : PoolOracle :=
  { slot0 := fun _ => some (123456, 1000)
    token0 := fun _ => some "0x00000000000000000000000000000000000000b0"
    token1 := fun _ => some "0x00000000000000000000000000000000000000b1"
    liquidity := fun _ => some 5000
    tickSpacing := fun _ => some 100
    symbol := fun t =>
      if t == "0x00000000000000000000000000000000000000b1" then some "USDC" else none
    decimals := fun _ => some 18 }

/-- Concrete position for the symbol-failure scenario. -/
def c9Pos : Position :=
  { id := 22, lp := "0x00000000000000000000000000000000000000d2",
    liquidity := 7, staked := 3, tick_lower := 900, tick_upper := 1100 }

/-- Call whose decoder succeeds on the fixed result string of the witness
network. -/
def c7CallGood : BatchCall :=
  { target := "0x00000000000000000000000000000000000000e1", calldata := "0xaaaa",
    decode := fun s => if s == "0xres" then some [7] else none }

/-- Call whose decoder always throws (ABI mismatch). -/
def c7CallBad : BatchCall :=
  { target := "0x00000000000000000000000000000000000000e1", calldata := "0xbbbb",
    decode := fun _ => none }

/-- Calls of the batch witness: chunk 0 holds a good and a bad call,
chunk 1 holds a good call (batch size 2). -/
def c7Calls : List BatchCall :=
  [c7CallGood, c7CallBad, c7CallGood]

/-- Witness network: chunk 0 answers with a well-formed array, chunk 1
fails with HTTP 503. -/
def c7Net : Nat → ChunkResponse :=
  fun chunkIdx =>
    if chunkIdx == 0 then
      ChunkResponse.ok [⟨0, none, "0xres"⟩, ⟨1, none, "0xres"⟩]
    else ChunkResponse.httpError 503

/-- Error carrying the string code RATE_LIMIT and a message without any of
the claim's substrings. -/
def c8Err : RpcError :=
  { code := JsErrCode.str "RATE_LIMIT", message := some "boom" }

/-- Operation failing once with `c8Err`, then succeeding. -/
def c8Op : Nat → Except RpcError Nat :=
  fun attempt => if attempt == 0 then .error c8Err else .ok 42

/-- Error that is not rate-limit-classified under either classification. -/
def c8ErrPlain : RpcError :=
  { code := JsErrCode.num 500, message := some "boom" }

/-- Operation that always fails with the non-classified error. -/
def c8OpPlain : Nat → Except RpcError Nat :=
  fun _ => .error c8ErrPlain

/-- Operation that always fails with the RATE_LIMIT-coded error. -/
def c8OpAll : Nat → Except RpcError Nat :=
  fun _ => .error c8Err

/-- C1: for every position and pool, `isPositionInRange` returns true if
and only if `tick_lower ≤ current_tick < tick_upper`; in particular a
current tick equal to `tick_upper` is out of range, and a current tick
equal to `tick_lower` is in range (for a well-formed range with
`tick_lower < tick_upper`). -/
theorem C1_range_predicate (position : Position) (pool : LpPool) :
    (isPositionInRange position pool = true ↔
      position.tick_lower ≤ pool.tick ∧ pool.tick < position.tick_upper) ∧
    (pool.tick = position.tick_upper → isPositionInRange position pool = false) ∧
    (pool.tick = position.tick_lower → position.tick_lower < position.tick_upper →
      isPositionInRange position pool = true) := by
  refine ⟨?_, ?_, ?_⟩ <;> simp [isPositionInRange] <;> omega

/-- Witness for C1 at the two boundary ticks of a concrete position. -/
theorem C1_range_predicate_witness :
    isPositionInRange c1Position (c1PoolAt 1100) = false ∧
    isPositionInRange c1Position (c1PoolAt 900) = true :=
  ⟨(C1_range_predicate c1Position (c1PoolAt 1100)).2.1 (by decide),
   (C1_range_predicate c1Position (c1PoolAt 900)).2.2 (by decide) (by decide)⟩

/-- C10: within one evaluation of the loop body, the out-of-range alert
and the back-in-range alert for the same position key are mutually
exclusive, being taken on opposite branches of the current in-range test. -/
theorem C10_alerts_mutually_exclusive (prevState : Option PositionState)
    (status : PositionStatus) (currentTime : Nat) :
    ((checkAndAlertStep prevState status currentTime).1.outOfRangeAlert &&
      (checkAndAlertStep prevState status currentTime).1.backInRangeAlert) = false := by
  rcases prevState with _ | p <;> rcases hin : status.isInRange <;>
      simp [checkAndAlertStep, hin]
  all_goals split <;> simp

/-- C3 characterization and idempotence: the back-in-range alert is
emitted (independently of all timestamps, hence with no cooldown gating)
exactly when the position is now in range and the stored previous state
says out-of-range; evaluating the same in-range status again right after
any evaluation emits no further back-in-range alert. -/
theorem C3_back_in_range_edge (prevState : Option PositionState)
    (status : PositionStatus) (currentTime : Nat) :
    ((checkAndAlertStep prevState status currentTime).1.backInRangeAlert = true ↔
      status.isInRange = true ∧ ∃ p, prevState = some p ∧ p.isInRange = false) ∧
    (∀ laterTime, status.isInRange = true →
      (checkAndAlertStep (some (checkAndAlertStep prevState status currentTime).2)
        status laterTime).1.backInRangeAlert = false) := by
  constructor
  · rcases prevState with _ | p <;> rcases hin : status.isInRange <;>
        simp [checkAndAlertStep, hin]
    all_goals split <;> simp
  · intro laterTime hin
    rcases prevState with _ | p <;> simp [checkAndAlertStep, hin]

/-- Witness for C3: a stored out-of-range state followed by an in-range
observation alerts once; the repeated observation does not alert again. -/
theorem C3_back_in_range_edge_witness :
    (checkAndAlertStep (some c3PrevOut) c3StatusIn 3).1.backInRangeAlert = true ∧
    (checkAndAlertStep (some (checkAndAlertStep (some c3PrevOut) c3StatusIn 3).2)
      c3StatusIn 9).1.backInRangeAlert = false :=
  ⟨(C3_back_in_range_edge (some c3PrevOut) c3StatusIn 3).1.mpr
      ⟨rfl, c3PrevOut, rfl, rfl⟩,
   (C3_back_in_range_edge (some c3PrevOut) c3StatusIn 3).2 9 rfl⟩

/-- C4 first observation: with no stored state the monitor assumes the
position was in range and staked, so a staked in-range observation emits
no alert at all, an unstaked observation emits the unstaked alert on that
same cycle, and an out-of-range observation emits the out-of-range alert. -/
theorem C4_first_observation (status : PositionStatus) (currentTime : Nat) :
    (status.isStaked = true → status.isInRange = true →
      (checkAndAlertStep none status currentTime).1 = ⟨false, false, false⟩) ∧
    (status.isStaked = false →
      (checkAndAlertStep none status currentTime).1.unstakedAlert = true) ∧
    (status.isInRange = false →
      (checkAndAlertStep none status currentTime).1.outOfRangeAlert = true) := by
  refine ⟨?_, ?_, ?_⟩ <;> intro h <;> simp_all [checkAndAlertStep]

/-- Witness for C4 at concrete first observations. -/
theorem C4_first_observation_witness :
    (checkAndAlertStep none c3StatusIn 5).1 = ⟨false, false, false⟩ ∧
    (checkAndAlertStep none { c3StatusIn with isStaked := false } 5).1.unstakedAlert = true ∧
    (checkAndAlertStep none c2Status 5).1.outOfRangeAlert = true :=
  ⟨(C4_first_observation c3StatusIn 5).1 rfl rfl,
   (C4_first_observation { c3StatusIn with isStaked := false } 5).2.1 rfl,
   (C4_first_observation c2Status 5).2.2 rfl⟩

/-- Counterexample to C2 as stated: in the scenario (out-of-range on every
cycle for 3 hours, 1-hour cooldown, 10-minute poll interval) the emission
times are not t = 0, 60 min, 120 min; in particular no alert is emitted at
t = 60 min, because the cooldown test is strict. -/
theorem C2_cooldown_counterexample :
    outOfRangeAlertTimes c2Status c2PollTimes ≠ [0, 3600000, 7200000] ∧
    3600000 ∉ outOfRangeAlertTimes c2Status c2PollTimes := by
  decide

/-- C2 amended: in the scenario, exactly 3 out-of-range alerts are
emitted, at t = 0, t = 70 min and t = 140 min (the cooldown test
`currentTime - last > ALERT_COOLDOWN_MS` is strict, so an alert fires on
the first poll strictly more than one hour after the previous alert);
moreover every emission stores the current time as the new cooldown
origin, and an in-range observation clears the cooldown origin to 0. -/
theorem C2_cooldown_amended :
    outOfRangeAlertTimes c2Status c2PollTimes = [0, 4200000, 8400000] ∧
    (∀ (prevState : Option PositionState) (status : PositionStatus) (currentTime : Nat),
      (checkAndAlertStep prevState status currentTime).1.outOfRangeAlert = true →
      (checkAndAlertStep prevState status currentTime).2.lastOutOfRangeAlertTime =
        currentTime) ∧
    (∀ (prevState : Option PositionState) (status : PositionStatus) (currentTime : Nat),
      status.isInRange = true →
      (checkAndAlertStep prevState status currentTime).2.lastOutOfRangeAlertTime = 0) := by
  refine ⟨by decide, ?_, ?_⟩
  · intro prevState status currentTime h
    rcases prevState with _ | p <;> rcases hin : status.isInRange <;>
        simp_all [checkAndAlertStep, hin]
    all_goals split at h <;> simp_all
  · intro prevState status currentTime hin
    rcases prevState with _ | p <;> simp [checkAndAlertStep, hin]

/-- Witness for the quantified parts of the amended C2: an emission at
time 5 stores 5 as the cooldown origin, and an in-range observation stores
0. -/
theorem C2_cooldown_amended_witness :
    (checkAndAlertStep none c2Status 5).2.lastOutOfRangeAlertTime = 5 ∧
    (checkAndAlertStep (some c3PrevOut) c3StatusIn 5).2.lastOutOfRangeAlertTime = 0 :=
  ⟨C2_cooldown_amended.2.1 none c2Status 5 (by decide),
   C2_cooldown_amended.2.2 (some c3PrevOut) c3StatusIn 5 rfl⟩

lemma any_key_eq (acc : List Position) (p : Position) :
    (acc.any fun existing => existing.id == p.id && existing.lp == p.lp) = true ↔
      (p.id, p.lp) ∈ acc.map posKey := by
  simp [List.any_eq_true, List.mem_map, posKey, Prod.ext_iff]

lemma dedupByKeyFirstAux_congr (l : List Position) :
    ∀ s1 s2 : List (Nat × String), (∀ k, k ∈ s1 ↔ k ∈ s2) →
      dedupByKeyFirstAux s1 l = dedupByKeyFirstAux s2 l := by
  induction l with
  | nil => intro s1 s2 _; rfl
  | cons p rest ih =>
    intro s1 s2 h
    simp only [dedupByKeyFirstAux]
    by_cases hk : (p.id, p.lp) ∈ s1
    · rw [if_pos hk, if_pos ((h _).mp hk)]
      exact ih s1 s2 h
    · rw [if_neg hk, if_neg (fun c => hk ((h _).mpr c))]
      congr 1
      exact ih _ _ (fun k => by simp [h k])

lemma dedupAppend_spec (l : List Position) :
    ∀ acc : List Position,
      dedupAppend acc l = acc ++ dedupByKeyFirstAux (acc.map posKey) l := by
  induction l with
  | nil => intro acc; simp [dedupAppend, dedupByKeyFirstAux]
  | cons p rest ih =>
    intro acc
    simp only [dedupAppend, dedupByKeyFirstAux]
    by_cases hk : (p.id, p.lp) ∈ acc.map posKey
    · rw [if_pos ((any_key_eq acc p).mpr hk), if_pos hk]
      exact ih acc
    · rw [if_neg (fun c => hk ((any_key_eq acc p).mp c)), if_neg hk]
      rw [ih (acc ++ [p])]
      rw [List.map_append]
      simp only [List.map_cons, List.map_nil]
      rw [dedupByKeyFirstAux_congr rest (acc.map posKey ++ [posKey p])
        ((p.id, p.lp) :: acc.map posKey) (fun k => by simp [posKey, or_comm])]
      simp

lemma dedupAppend_append (l1 : List Position) :
    ∀ (acc : List Position) (l2 : List Position),
      dedupAppend acc (l1 ++ l2) = dedupAppend (dedupAppend acc l1) l2 := by
  induction l1 with
  | nil => intro acc l2; rfl
  | cons p rest ih =>
    intro acc l2
    simp only [List.cons_append, dedupAppend]
    exact ih _ l2

lemma addBatch_eq (batch : List RawPosition) :
    ∀ acc : List Position,
      addBatch acc batch = dedupAppend acc ((batch.filter keepRaw).map parsePosition) := by
  induction batch with
  | nil => intro acc; rfl
  | cons pos rest ih =>
    intro acc
    by_cases h1 : pos.lp = ZeroAddress
    · have hkeep : keepRaw pos = false := by simp [keepRaw, h1]
      simp [addBatch, List.filter_cons, hkeep, h1, ih]
    · by_cases h2 : pos.liquidity > 0 ∨ pos.staked > 0 ∨ pos.id > 0
      · have hkeep : keepRaw pos = true := by simp [keepRaw, h1, h2]
        simp [addBatch, List.filter_cons, hkeep, h1, h2, dedupAppend, ih]
      · have hkeep : keepRaw pos = false := by simp [keepRaw, h1, h2]
        simp [addBatch, List.filter_cons, hkeep, h1, h2, ih]

lemma foldl_addBatch (pages : List (List RawPosition)) :
    ∀ acc : List Position,
      pages.foldl addBatch acc =
        dedupAppend acc ((pages.flatten.filter keepRaw).map parsePosition) := by
  induction pages with
  | nil => intro acc; rfl
  | cons b rest ih =>
    intro acc
    simp only [List.foldl_cons, List.flatten_cons, List.filter_append, List.map_append]
    rw [addBatch_eq, ih, dedupAppend_append]

lemma dedupByKeyFirstAux_pairwise (l : List Position) :
    ∀ seen : List (Nat × String),
      (dedupByKeyFirstAux seen l).Pairwise (fun a b => ¬(a.id = b.id ∧ a.lp = b.lp)) ∧
      (∀ p ∈ dedupByKeyFirstAux seen l, (p.id, p.lp) ∉ seen) := by
  induction l with
  | nil => intro seen; simp [dedupByKeyFirstAux]
  | cons p rest ih =>
    intro seen
    simp only [dedupByKeyFirstAux]
    by_cases hk : (p.id, p.lp) ∈ seen
    · rw [if_pos hk]
      exact ih seen
    · rw [if_neg hk]
      refine ⟨List.Pairwise.cons ?_ (ih _).1, ?_⟩
      · intro q hq hcon
        have h2 := (ih ((p.id, p.lp) :: seen)).2 q hq
        exact h2 (by simp [hcon.1.symm, hcon.2.symm])
      · intro q hq
        rcases List.mem_cons.mp hq with rfl | hq'
        · exact hk
        · have h2 := (ih ((p.id, p.lp) :: seen)).2 q hq'
          exact fun c => h2 (List.mem_cons_of_mem _ c)

lemma dedupByKeyFirstAux_subset (l : List Position) :
    ∀ (seen : List (Nat × String)) (p : Position),
      p ∈ dedupByKeyFirstAux seen l → p ∈ l := by
  induction l with
  | nil => intro seen p h; simp [dedupByKeyFirstAux] at h
  | cons q rest ih =>
    intro seen p h
    simp only [dedupByKeyFirstAux] at h
    by_cases hk : (q.id, q.lp) ∈ seen
    · rw [if_pos hk] at h
      exact List.mem_cons_of_mem _ (ih seen p h)
    · rw [if_neg hk] at h
      rcases List.mem_cons.mp h with rfl | h'
      · exact List.mem_cons_self _ _
      · exact List.mem_cons_of_mem _ (ih _ p h')

/-- C5: `fetchPositions` equals the spec-side first-occurrence
deduplication of the valid tuples of both sources in order; hence at most
one position per distinct `(id, pool_address)` pair survives, and every
returned position has a nonzero pool address and is not an empty slot. -/
theorem C5_fetchPositions_dedup (b1 b2 : List (List RawPosition)) :
    fetchPositions b1 b2 =
      dedupByKeyFirst (((b1.flatten ++ b2.flatten).filter keepRaw).map parsePosition) ∧
    (fetchPositions b1 b2).Pairwise (fun a b => ¬(a.id = b.id ∧ a.lp = b.lp)) ∧
    (∀ p ∈ fetchPositions b1 b2,
      p.lp ≠ ZeroAddress ∧ (p.liquidity > 0 ∨ p.staked > 0 ∨ p.id > 0)) := by
  have heq : fetchPositions b1 b2 =
      dedupByKeyFirst (((b1.flatten ++ b2.flatten).filter keepRaw).map parsePosition) := by
    unfold fetchPositions
    rw [foldl_addBatch, foldl_addBatch, ← dedupAppend_append]
    rw [dedupAppend_spec]
    simp [dedupByKeyFirst, List.filter_append, List.map_append]
  refine ⟨heq, ?_, ?_⟩
  · rw [heq]
    exact (dedupByKeyFirstAux_pairwise _ []).1
  · intro p hp
    rw [heq] at hp
    have hmem := dedupByKeyFirstAux_subset _ [] p hp
    obtain ⟨raw, hraw, rfl⟩ := List.mem_map.mp hmem
    have hk := (List.mem_filter.mp hraw).2
    simp only [keepRaw, decide_eq_true_eq] at hk
    simpa [parsePosition] using hk

/-- Witness for C5: on the concrete overlapping pages, the surviving
position is the first occurrence and satisfies the filter conditions. -/
theorem C5_fetchPositions_dedup_witness :
    fetchPositions c5Pages1 c5Pages2 = [parsePosition c5RawA] ∧
    (parsePosition c5RawA).lp ≠ ZeroAddress ∧
    ((parsePosition c5RawA).liquidity > 0 ∨ (parsePosition c5RawA).staked > 0 ∨
      (parsePosition c5RawA).id > 0) :=
  ⟨by decide,
   (C5_fetchPositions_dedup c5Pages1 c5Pages2).2.2 (parsePosition c5RawA) (by decide)⟩

lemma cacheGet_empty (T : Type) (ttl now : Nat) (key : String) :
    Cache.get (Cache.empty T ttl) now key = (none, Cache.empty T ttl) := by
  simp [Cache.get, Cache.empty, mapLookup]

lemma cacheSet_empty (T : Type) (ttl now : Nat) (key : String) (v : T) :
    Cache.set (Cache.empty T ttl) now key v = ⟨[(key, ⟨v, now + ttl⟩)], ttl⟩ := by
  simp [Cache.set, Cache.empty, mapInsert]

lemma cacheGet_singleton_fresh {T : Type} (ttl now expiry : Nat) (key : String) (v : T)
    (h : now ≤ expiry) :
    Cache.get ⟨[(key, ⟨v, expiry⟩)], ttl⟩ now key = (some v, ⟨[(key, ⟨v, expiry⟩)], ttl⟩) := by
  simp [Cache.get, mapLookup, List.find?, Nat.not_lt.mpr h]

lemma cacheGet_singleton_expired {T : Type} (ttl now expiry : Nat) (key : String) (v : T)
    (h : expiry < now) :
    Cache.get ⟨[(key, ⟨v, expiry⟩)], ttl⟩ now key = (none, ⟨[], ttl⟩) := by
  simp [Cache.get, mapLookup, List.find?, h, mapErase]

lemma fetchPoolData_hit (oracle : PoolOracle) (cache c1 : Cache LpPool) (now : Nat)
    (addr : String) (pool : LpPool) (h : Cache.get cache now addr = (some pool, c1)) :
    fetchPoolData oracle cache now addr = (some pool, c1, 0) := by
  simp [fetchPoolData, h]

lemma fetchPoolData_fresh (oracle : PoolOracle) (cache c1 : Cache LpPool) (now : Nat)
    (addr : String) (s0 : Nat × Int) (t0 t1 : String) (liq : Nat) (ts : Int)
    (sym0 sym1 : String) (d0 d1 : Nat)
    (hc : Cache.get cache now addr = (none, c1))
    (h1 : oracle.slot0 addr = some s0) (h2 : oracle.token0 addr = some t0)
    (h3 : oracle.token1 addr = some t1) (h4 : oracle.liquidity addr = some liq)
    (h5 : oracle.tickSpacing addr = some ts) (h6 : oracle.symbol t0 = some sym0)
    (h7 : oracle.decimals t0 = some d0) (h8 : oracle.symbol t1 = some sym1)
    (h9 : oracle.decimals t1 = some d1) :
    fetchPoolData oracle cache now addr =
      (some
        { lp := addr, symbol := sym0 ++ "/" ++ sym1, liquidity := liq, tick := s0.2,
          sqrt_ratio := s0.1, token0 := t0, token1 := t1 },
       Cache.set c1 now addr
        { lp := addr, symbol := sym0 ++ "/" ++ sym1, liquidity := liq, tick := s0.2,
          sqrt_ratio := s0.1, token0 := t0, token1 := t1 }, 9) := by
  simp [fetchPoolData, hc, h1, h2, h3, h4, h5, h6, h7, h8, h9]

lemma fetchPoolData_symbol0_fail (oracle : PoolOracle) (cache c1 : Cache LpPool) (now : Nat)
    (addr : String) (s0 : Nat × Int) (t0 t1 : String) (liq : Nat) (ts : Int)
    (hc : Cache.get cache now addr = (none, c1))
    (h1 : oracle.slot0 addr = some s0) (h2 : oracle.token0 addr = some t0)
    (h3 : oracle.token1 addr = some t1) (h4 : oracle.liquidity addr = some liq)
    (h5 : oracle.tickSpacing addr = some ts) (h6 : oracle.symbol t0 = none) :
    fetchPoolData oracle cache now addr = (none, c1, 9) := by
  simp [fetchPoolData, hc, h1, h2, h3, h4, h5, h6]

lemma fetchPoolsForPositions_single_success (oracle : PoolOracle)
    (cache c2 : Cache LpPool) (now n : Nat) (pos : Position) (pool : LpPool)
    (h : fetchPoolData oracle cache now pos.lp = (some pool, c2, n)) :
    fetchPoolsForPositions oracle cache now [pos] = ([(pos.lp, pool)], c2, n) := by
  simp [fetchPoolsForPositions, dedupStringsAux, h]

lemma fetchPoolsForPositions_single_failure (oracle : PoolOracle)
    (cache c2 : Cache LpPool) (now n : Nat) (pos : Position)
    (h : fetchPoolData oracle cache now pos.lp = (none, c2, n)) :
    fetchPoolsForPositions oracle cache now [pos] = ([], c2, n) := by
  simp [fetchPoolsForPositions, dedupStringsAux, h]

/-- C6: when every underlying call for a pool succeeds, the first
`fetchPoolsForPositions` for a position in that pool issues 9 RPC calls
and puts the pool in the result map; a second call within the cache TTL
issues 0 RPC calls and returns the identical map from the cache, while a
second call after the TTL has expired re-fetches with 9 RPC calls. -/
theorem C6_cache_ttl (oracle : PoolOracle) (ttl now1 now2 : Nat) (pos : Position)
    (s0 : Nat × Int) (t0 t1 : String) (liq : Nat) (ts : Int)
    (sym0 sym1 : String) (d0 d1 : Nat)
    (h1 : oracle.slot0 pos.lp = some s0) (h2 : oracle.token0 pos.lp = some t0)
    (h3 : oracle.token1 pos.lp = some t1) (h4 : oracle.liquidity pos.lp = some liq)
    (h5 : oracle.tickSpacing pos.lp = some ts) (h6 : oracle.symbol t0 = some sym0)
    (h7 : oracle.decimals t0 = some d0) (h8 : oracle.symbol t1 = some sym1)
    (h9 : oracle.decimals t1 = some d1) :
    (fetchPoolsForPositions oracle (Cache.empty LpPool ttl) now1 [pos]).2.2 = 9 ∧
    (mapGetPool
      (fetchPoolsForPositions oracle (Cache.empty LpPool ttl) now1 [pos]).1
      pos.lp).isSome = true ∧
    (now2 ≤ now1 + ttl →
      (fetchPoolsForPositions oracle
        (fetchPoolsForPositions oracle (Cache.empty LpPool ttl) now1 [pos]).2.1
        now2 [pos]).2.2 = 0 ∧
      (fetchPoolsForPositions oracle
        (fetchPoolsForPositions oracle (Cache.empty LpPool ttl) now1 [pos]).2.1
        now2 [pos]).1 =
        (fetchPoolsForPositions oracle (Cache.empty LpPool ttl) now1 [pos]).1) ∧
    (now1 + ttl < now2 →
      (fetchPoolsForPositions oracle
        (fetchPoolsForPositions oracle (Cache.empty LpPool ttl) now1 [pos]).2.1
        now2 [pos]).2.2 = 9) := by
  have hfresh := fetchPoolData_fresh oracle (Cache.empty LpPool ttl) (Cache.empty LpPool ttl)
    now1 pos.lp s0 t0 t1 liq ts sym0 sym1 d0 d1
    (cacheGet_empty LpPool ttl now1 pos.lp) h1 h2 h3 h4 h5 h6 h7 h8 h9
  rw [cacheSet_empty] at hfresh
  have hr1 := fetchPoolsForPositions_single_success oracle (Cache.empty LpPool ttl) _
    now1 9 pos _ hfresh
  rw [hr1]
  refine ⟨rfl, by simp [mapGetPool], ?_, ?_⟩
  · intro hle
    have hget := cacheGet_singleton_fresh ttl now2 (now1 + ttl) pos.lp
      ({ lp := pos.lp, symbol := sym0 ++ "/" ++ sym1, liquidity := liq, tick := s0.2,
         sqrt_ratio := s0.1, token0 := t0, token1 := t1 } : LpPool) hle
    have hhit := fetchPoolData_hit oracle _ _ now2 pos.lp _ hget
    have hr2 := fetchPoolsForPositions_single_success oracle _ _ now2 0 pos _ hhit
    rw [hr2]
    exact ⟨rfl, rfl⟩
  · intro hlt
    have hget := cacheGet_singleton_expired ttl now2 (now1 + ttl) pos.lp
      ({ lp := pos.lp, symbol := sym0 ++ "/" ++ sym1, liquidity := liq, tick := s0.2,
         sqrt_ratio := s0.1, token0 := t0, token1 := t1 } : LpPool) hlt
    have hfresh2 := fetchPoolData_fresh oracle _ (⟨[], ttl⟩ : Cache LpPool)
      now2 pos.lp s0 t0 t1 liq ts sym0 sym1 d0 d1 hget h1 h2 h3 h4 h5 h6 h7 h8 h9
    have hr2 := fetchPoolsForPositions_single_success oracle _ _ now2 9 pos _ hfresh2
    rw [hr2]

/-- Witness for C6 at a concrete oracle: 9 calls on first fetch, 0 calls
when re-fetching within the TTL, 9 calls after expiry. -/
theorem C6_cache_ttl_witness :
    (fetchPoolsForPositions c6Oracle (Cache.empty LpPool 300000) 1000 [c6Pos]).2.2 = 9 ∧
    (fetchPoolsForPositions c6Oracle
      (fetchPoolsForPositions c6Oracle (Cache.empty LpPool 300000) 1000 [c6Pos]).2.1
      2000 [c6Pos]).2.2 = 0 ∧
    (fetchPoolsForPositions c6Oracle
      (fetchPoolsForPositions c6Oracle (Cache.empty LpPool 300000) 1000 [c6Pos]).2.1
      400001 [c6Pos]).2.2 = 9 :=
  ⟨(C6_cache_ttl c6Oracle 300000 1000 2000 c6Pos (123456, 1000)
      "0x00000000000000000000000000000000000000b0"
      "0x00000000000000000000000000000000000000b1" 5000 100 "WETH" "USDC" 18 18
      (by decide) (by decide) (by decide) (by decide) (by decide) (by decide)
      (by decide) (by decide) (by decide)).1,
   ((C6_cache_ttl c6Oracle 300000 1000 2000 c6Pos (123456, 1000)
      "0x00000000000000000000000000000000000000b0"
      "0x00000000000000000000000000000000000000b1" 5000 100 "WETH" "USDC" 18 18
      (by decide) (by decide) (by decide) (by decide) (by decide) (by decide)
      (by decide) (by decide) (by decide)).2.2.1 (by decide)).1,
   (C6_cache_ttl c6Oracle 300000 1000 400001 c6Pos (123456, 1000)
      "0x00000000000000000000000000000000000000b0"
      "0x00000000000000000000000000000000000000b1" 5000 100 "WETH" "USDC" 18 18
      (by decide) (by decide) (by decide) (by decide) (by decide) (by decide)
      (by decide) (by decide) (by decide)).2.2.2 (by decide)⟩

/-- Counterexample to C9 as stated: with an oracle for which all five pool
basics succeed but the `symbol()` call for token0 fails, the pool does not
appear in the result map at all — there is no placeholder defaulting. -/
theorem C9_placeholder_counterexample :
    (c9Oracle.slot0 c9Pos.lp).isSome = true ∧
    (c9Oracle.token0 c9Pos.lp).isSome = true ∧
    (c9Oracle.token1 c9Pos.lp).isSome = true ∧
    (c9Oracle.liquidity c9Pos.lp).isSome = true ∧
    (c9Oracle.tickSpacing c9Pos.lp).isSome = true ∧
    c9Oracle.symbol "0x00000000000000000000000000000000000000b0" = none ∧
    mapGetPool
      (fetchPoolsForPositions c9Oracle (Cache.empty LpPool 300000) 0 [c9Pos]).1
      c9Pos.lp = none := by
  decide

/-- C9 amended: a failed token-symbol lookup is not defaulted to a
placeholder; it fails the whole pool fetch, so a pool whose basics all
resolved is nevertheless omitted from the result map for this cycle when a
symbol call for one of its tokens fails. -/
theorem C9_symbol_failure_drops_pool (oracle : PoolOracle) (cache c1 : Cache LpPool)
    (now : Nat) (pos : Position) (s0 : Nat × Int) (t0 t1 : String) (liq : Nat) (ts : Int)
    (hc : Cache.get cache now pos.lp = (none, c1))
    (h1 : oracle.slot0 pos.lp = some s0) (h2 : oracle.token0 pos.lp = some t0)
    (h3 : oracle.token1 pos.lp = some t1) (h4 : oracle.liquidity pos.lp = some liq)
    (h5 : oracle.tickSpacing pos.lp = some ts) (h6 : oracle.symbol t0 = none) :
    (fetchPoolData oracle cache now pos.lp).1 = none ∧
    mapGetPool (fetchPoolsForPositions oracle cache now [pos]).1 pos.lp = none := by
  have hfpd := fetchPoolData_symbol0_fail oracle cache c1 now pos.lp s0 t0 t1 liq ts
    hc h1 h2 h3 h4 h5 h6
  refine ⟨by rw [hfpd], ?_⟩
  rw [fetchPoolsForPositions_single_failure oracle cache c1 now 9 pos hfpd]
  simp [mapGetPool]

/-- Witness for the amended C9 at the concrete symbol-failure oracle. -/
theorem C9_symbol_failure_drops_pool_witness :
    (fetchPoolData c9Oracle (Cache.empty LpPool 300000) 0 c9Pos.lp).1 = none ∧
    mapGetPool
      (fetchPoolsForPositions c9Oracle (Cache.empty LpPool 300000) 0 [c9Pos]).1
      c9Pos.lp = none :=
  C9_symbol_failure_drops_pool c9Oracle (Cache.empty LpPool 300000)
    (Cache.empty LpPool 300000) 0 c9Pos (123456, 1000)
    "0x00000000000000000000000000000000000000b0"
    "0x00000000000000000000000000000000000000b1" 5000 100
    (by decide) (by decide) (by decide) (by decide) (by decide) (by decide) (by decide)

lemma processEntries_length (resp : ChunkResponse) :
    ∀ (calls : List BatchCall) (i : Nat),
      (processEntries resp i calls).length = calls.length := by
  intro calls
  induction calls with
  | nil => intro i; rfl
  | cons c rest ih => intro i; simp [processEntries, ih]

lemma processEntries_getD (resp : ChunkResponse) :
    ∀ (calls : List BatchCall) (i j : Nat) (h : j < calls.length),
      (processEntries resp i calls).getD j failedResult =
        entryOutcome (calls.get ⟨j, h⟩) (i + j) resp := by
  intro calls
  induction calls with
  | nil => intro i j h; simp at h
  | cons c rest ih =>
    intro i j h
    cases j with
    | zero => simp [processEntries]
    | succ j =>
      simp only [processEntries, List.getD_cons_succ]
      rw [ih (i + 1) j (by simpa using h)]
      congr 1
      omega

lemma executeChunksFuel_length (net : Nat → ChunkResponse) (bs : Nat) (hbs : 0 < bs) :
    ∀ (fuel : Nat) (calls : List BatchCall) (ci : Nat), calls.length ≤ fuel →
      (executeChunksFuel net bs fuel ci calls).length = calls.length := by
  intro fuel
  induction fuel with
  | zero =>
    intro calls ci hle
    cases calls with
    | nil => rfl
    | cons c rest => simp at hle
  | succ fuel ih =>
    intro calls ci hle
    cases calls with
    | nil => rfl
    | cons c rest =>
      simp only [executeChunksFuel, List.length_append, processChunk]
      rw [ih ((c :: rest).drop bs) (ci + 1) (by rw [List.length_drop]; simp at hle ⊢; omega)]
      rw [processEntries_length, List.length_take, List.length_drop]
      omega

lemma executeChunksFuel_getD (net : Nat → ChunkResponse) (bs : Nat) (hbs : 0 < bs) :
    ∀ (fuel : Nat) (calls : List BatchCall) (ci i : Nat) (h : i < calls.length),
      calls.length ≤ fuel →
      (executeChunksFuel net bs fuel ci calls).getD i failedResult =
        entryOutcome (calls.get ⟨i, h⟩) (i % bs) (net (ci + i / bs)) := by
  intro fuel
  induction fuel with
  | zero => intro calls ci i h hle; omega
  | succ fuel ih =>
    intro calls ci i h hle
    cases calls with
    | nil => simp at h
    | cons c rest =>
      simp only [executeChunksFuel, processChunk]
      by_cases hi : i < bs
      · have htk : i < ((c :: rest).take bs).length := by
          rw [List.length_take]
          exact lt_min hi h
        have hlen1 : i < (processEntries (net ci) 0 ((c :: rest).take bs)).length := by
          rw [processEntries_length]
          exact htk
        rw [List.getD_append _ _ _ _ hlen1]
        rw [processEntries_getD (net ci) _ 0 i htk]
        have hget : ((c :: rest).take bs).get ⟨i, htk⟩ = (c :: rest).get ⟨i, h⟩ := by
          simp [List.get_eq_getElem, List.getElem_take]
        rw [hget, Nat.zero_add]
        have hmod : i % bs = i := Nat.mod_eq_of_lt hi
        have hdiv : ci + i / bs = ci := by rw [Nat.div_eq_of_lt hi]; omega
        rw [hmod, hdiv]
      · obtain ⟨j, rfl⟩ : ∃ j, i = bs + j := ⟨i - bs, by omega⟩
        have hlen1 : (processEntries (net ci) 0 ((c :: rest).take bs)).length = bs := by
          rw [processEntries_length, List.length_take]
          have : bs ≤ (c :: rest).length := by omega
          omega
        rw [List.getD_append_right _ _ _ _ (by rw [hlen1]; omega)]
        rw [hlen1]
        have hidx : bs + j - bs = j := by omega
        rw [hidx]
        have hdlen : j < ((c :: rest).drop bs).length := by
          rw [List.length_drop]
          omega
        rw [ih ((c :: rest).drop bs) (ci + 1) j hdlen (by rw [List.length_drop]; simp at hle ⊢; omega)]
        have hget : ((c :: rest).drop bs).get ⟨j, hdlen⟩ = (c :: rest).get ⟨bs + j, h⟩ := by
          simp [List.get_eq_getElem, List.getElem_drop]
        rw [hget]
        have hmod : (bs + j) % bs = j % bs := Nat.add_mod_left bs j
        have hdiv : ci + (bs + j) / bs = ci + 1 + j / bs := by
          rw [Nat.add_comm bs j, Nat.add_div_right j hbs]
          omega
        rw [hmod, hdiv]

/-- C7: the batch provider returns one result per call in input order; the
result of call i depends only on the call itself, its intra-chunk id
`i % batchSize` and the response of its own chunk `i / batchSize` (so a
failure never leaks to other entries or chunks); a transport-level failure
of a chunk fails every call of that chunk; and an individual decoding
failure fails exactly that entry. -/
theorem C7_batch_chunk_isolation (net : Nat → ChunkResponse) (calls : List BatchCall)
    (batchSize : Nat) (hbs : 0 < batchSize) :
    (BatchProvider.execute net calls batchSize).length = calls.length ∧
    (∀ i (h : i < calls.length),
      (BatchProvider.execute net calls batchSize).getD i failedResult =
        entryOutcome (calls.get ⟨i, h⟩) (i % batchSize) (net (i / batchSize))) ∧
    (∀ i, i < calls.length → isTransportFailure (net (i / batchSize)) = true →
      ((BatchProvider.execute net calls batchSize).getD i failedResult).success = false) ∧
    (∀ i (h : i < calls.length) entries res,
      net (i / batchSize) = ChunkResponse.ok entries →
      lookupById entries (i % batchSize) = some res →
      res.error = none →
      (calls.get ⟨i, h⟩).decode res.result = none →
      ((BatchProvider.execute net calls batchSize).getD i failedResult).success = false) := by
  have hchar : ∀ i (h : i < calls.length),
      (BatchProvider.execute net calls batchSize).getD i failedResult =
        entryOutcome (calls.get ⟨i, h⟩) (i % batchSize) (net (i / batchSize)) := by
    intro i h
    simpa [BatchProvider.execute] using
      executeChunksFuel_getD net batchSize hbs calls.length calls 0 i h le_rfl
  refine ⟨by simpa [BatchProvider.execute] using
      executeChunksFuel_length net batchSize hbs calls.length calls 0 le_rfl,
    hchar, ?_, ?_⟩
  · intro i h htf
    rw [hchar i h]
    cases hresp : net (i / batchSize) <;>
      simp_all [entryOutcome, isTransportFailure, failedResult]
  · intro i h entries res hresp hlook herr hdec
    rw [hchar i h, hresp]
    simp only [List.get_eq_getElem] at hdec
    simp [entryOutcome, hlook, herr, hdec, failedResult]

/-- Witness for C7 on a concrete two-chunk batch: in-order results, the
decode-failing call fails alone inside the healthy chunk, the HTTP-failing
chunk fails its call, and the healthy call succeeds. -/
theorem C7_batch_chunk_isolation_witness :
    (BatchProvider.execute c7Net c7Calls 2).length = c7Calls.length ∧
    ((BatchProvider.execute c7Net c7Calls 2).getD 1 failedResult).success = false ∧
    ((BatchProvider.execute c7Net c7Calls 2).getD 2 failedResult).success = false ∧
    ((BatchProvider.execute c7Net c7Calls 2).getD 0 failedResult).success = true := by
  have h := C7_batch_chunk_isolation c7Net c7Calls 2 (by decide)
  refine ⟨h.1, ?_, ?_, ?_⟩
  · exact h.2.2.2 1 (by decide) [⟨0, none, "0xres"⟩, ⟨1, none, "0xres"⟩]
      ⟨1, none, "0xres"⟩ rfl (by decide) rfl rfl
  · exact h.2.2.1 2 (by decide) (by decide)
  · rw [h.2.1 0 (by decide)]
    decide

lemma executeAux_ok (op : Nat → Except RpcError Nat) (attempt d bm remaining : Nat)
    (v : Nat) (h : op attempt = .ok v) :
    RateLimiter.executeAux op attempt d bm remaining = (.ok v, []) := by
  cases remaining <;> simp [RateLimiter.executeAux, h]

lemma executeAux_error_last (op : Nat → Except RpcError Nat) (attempt d bm : Nat)
    (e : RpcError) (h : op attempt = .error e) :
    RateLimiter.executeAux op attempt d bm 0 = (.error e, []) := by
  simp [RateLimiter.executeAux, h]

lemma executeAux_error_plain (op : Nat → Except RpcError Nat) (attempt d bm remaining : Nat)
    (e : RpcError) (h : op attempt = .error e) (hrl : isRateLimitError e = false) :
    RateLimiter.executeAux op attempt d bm remaining = (.error e, []) := by
  cases remaining <;> simp [RateLimiter.executeAux, h, hrl]

lemma executeAux_classified_run (op : Nat → Except RpcError Nat) (bm : Nat) :
    ∀ (k attempt d remaining : Nat), k ≤ remaining →
      (∀ j, j < k → ∃ e, op (attempt + j) = .error e ∧ isRateLimitError e = true) →
      RateLimiter.executeAux op attempt d bm remaining =
        ((RateLimiter.executeAux op (attempt + k) (d * bm ^ k) bm (remaining - k)).1,
         ((List.range k).map fun j => d * bm ^ j) ++
           (RateLimiter.executeAux op (attempt + k) (d * bm ^ k) bm (remaining - k)).2) := by
  intro k
  induction k with
  | zero => intro attempt d remaining _ _; simp
  | succ k ihk =>
    intro attempt d remaining hk hpre
    obtain ⟨e, he, hrl⟩ := hpre 0 (by omega)
    rw [Nat.add_zero] at he
    obtain ⟨r, rfl⟩ : ∃ r, remaining = r + 1 := ⟨remaining - 1, by omega⟩
    have hdel : ((List.range (k + 1)).map fun j => d * bm ^ j) =
        d :: ((List.range k).map fun j => d * bm * bm ^ j) := by
      rw [List.range_succ_eq_map, List.map_cons, List.map_map]
      refine congrArg₂ _ (by simp) ?_
      refine List.map_congr_left ?_
      intro a _
      simp [Function.comp, pow_succ]
      ring
    rw [show attempt + (k + 1) = attempt + 1 + k by omega,
      show d * bm ^ (k + 1) = d * bm * bm ^ k by ring,
      show r + 1 - (k + 1) = r - k by omega, hdel]
    simp only [RateLimiter.executeAux, he, if_pos hrl]
    rw [ihk (attempt + 1) (d * bm) r (by omega)
      (fun j hj => by simpa [Nat.add_assoc, Nat.add_comm 1 j] using hpre (j + 1) (by omega))]
    simp

/-- Counterexample to C8 as stated: the error with string code RATE_LIMIT
and message "boom" is not classified by the claim's rule (code 429 or a
"rate limit" / "Too Many Requests" message substring), yet the code
retries it instead of propagating it immediately: the operation fails once
with this error and then succeeds, and `execute` returns the success after
one backoff sleep. -/
theorem C8_classification_counterexample :
    claimRateLimitClassified c8Err = false ∧
    (RateLimiter.execute c8Op 100 3 2).1 = .ok 42 ∧
    (RateLimiter.execute c8Op 100 3 2).2 = [100] :=
  ⟨by decide, rfl, by decide⟩

/-- C8 amended: the retry classification also accepts an error whose code
is the string RATE_LIMIT, besides code 429 and the two message substrings.
With that classification: if the first k attempts fail with classified
errors and attempt k succeeds, the result is that success after k backoff
sleeps of exponentially growing duration `minDelayMs * backoffMultiplier ^ j`;
if attempt k fails with a non-classified error it propagates immediately
with no further retry; and if all `maxRetries + 1` attempts fail with
classified errors, the last error is re-raised. -/
theorem C8_rate_limit_retry (op : Nat → Except RpcError Nat)
    (minDelayMs maxRetries backoffMultiplier : Nat) :
    (∀ k v, k ≤ maxRetries →
      (∀ j, j < k → ∃ e, op j = .error e ∧ isRateLimitError e = true) →
      op k = .ok v →
      RateLimiter.execute op minDelayMs maxRetries backoffMultiplier =
        (.ok v, (List.range k).map fun j => minDelayMs * backoffMultiplier ^ j)) ∧
    (∀ k e, k ≤ maxRetries →
      (∀ j, j < k → ∃ e2, op j = .error e2 ∧ isRateLimitError e2 = true) →
      op k = .error e → isRateLimitError e = false →
      RateLimiter.execute op minDelayMs maxRetries backoffMultiplier =
        (.error e, (List.range k).map fun j => minDelayMs * backoffMultiplier ^ j)) ∧
    ((∀ j, j ≤ maxRetries → ∃ e, op j = .error e ∧ isRateLimitError e = true) →
      ∀ e, op maxRetries = .error e →
      RateLimiter.execute op minDelayMs maxRetries backoffMultiplier =
        (.error e, (List.range maxRetries).map fun j => minDelayMs * backoffMultiplier ^ j)) := by
  refine ⟨?_, ?_, ?_⟩
  · intro k v hk hpre hok
    unfold RateLimiter.execute
    rw [executeAux_classified_run op backoffMultiplier k 0 minDelayMs maxRetries hk
      (fun j hj => by simpa using hpre j hj)]
    simp only [Nat.zero_add]
    rw [executeAux_ok op k _ _ _ v (by simpa using hok)]
    simp
  · intro k e hk hpre herr hrl
    unfold RateLimiter.execute
    rw [executeAux_classified_run op backoffMultiplier k 0 minDelayMs maxRetries hk
      (fun j hj => by simpa using hpre j hj)]
    simp only [Nat.zero_add]
    rw [executeAux_error_plain op k _ _ _ e (by simpa using herr) hrl]
    simp
  · intro hall e herr
    unfold RateLimiter.execute
    rw [executeAux_classified_run op backoffMultiplier maxRetries 0 minDelayMs maxRetries le_rfl
      (fun j hj => by simpa using hall j (le_of_lt hj))]
    simp only [Nat.zero_add]
    rw [Nat.sub_self]
    rw [executeAux_error_last op maxRetries _ _ e (by simpa using herr)]
    simp

/-- Witness for the amended C8: one classified failure then success gives
the success after one sleep; an immediate non-classified failure
propagates with no sleeps; all-classified failures exhaust the budget and
re-raise the last error after geometric sleeps. -/
theorem C8_rate_limit_retry_witness :
    RateLimiter.execute c8Op 100 3 2 =
      (.ok 42, (List.range 1).map fun j => 100 * 2 ^ j) ∧
    RateLimiter.execute c8OpPlain 100 3 2 =
      (.error c8ErrPlain, (List.range 0).map fun j => 100 * 2 ^ j) ∧
    RateLimiter.execute c8OpAll 100 2 2 =
      (.error c8Err, (List.range 2).map fun j => 100 * 2 ^ j) :=
  ⟨(C8_rate_limit_retry c8Op 100 3 2).1 1 42 (by omega)
      (fun j hj => ⟨c8Err, by
        have hj0 : j = 0 := by omega
        subst hj0
        exact ⟨rfl, by decide⟩⟩) rfl,
   (C8_rate_limit_retry c8OpPlain 100 3 2).2.1 0 c8ErrPlain (by omega)
      (fun j hj => absurd hj (by omega)) rfl (by decide),
   (C8_rate_limit_retry c8OpAll 100 2 2).2.2
      (fun j _ => ⟨c8Err, rfl, by decide⟩) c8Err rfl⟩
